import Mathlib

/-!
# Verification of the Playtime Co. Party Server (`src/server.js`)

A shallow embedding of the WebSocket party server: a JSON value model
(restricted to the integer fragment of JS numbers, with `NaN` carried
explicitly), the coercion idioms the server uses (`+v || d`, `v || d`,
`String(v)`), the registry state (`parties`, `clients`, `nextId`), and
one Lean function per message handler (`create`, `join`, `state`,
`chat`, `event`) plus the connection-close hook.

JavaScript `Map`s are embedded as association lists with the `Map`
operations (`get`, `set`, `delete`, `size`, insertion-order `forEach`).
Randomness (`genCode`, `genName`) is passed in as oracle arguments: the
`while (parties.has(code)) code = genCode()` loop becomes a search for
the first fresh candidate in an oracle list, returning `none` (the model
of divergence) when the list is exhausted.  Outputs model the sequence
of `send(ws, obj)` invocations, identified by connection handle; the
`readyState === 1` transport guard inside `send` is outside the model.
-/

namespace PartyServer

/-- JavaScript values, restricted to what reaches the handlers through
`JSON.parse` plus the `undefined` of an absent field.  Numbers are
modelled in their integer fragment, with `NaN` as a separate
constructor (`+x` on a non-numeric string produces `NaN`). -/
inductive JSVal where
  | undef
  | vnull
  | vbool (b : Bool)
  | vnum (n : Int)
  | vnan
  | vstr (s : String)
  | vobj (fields : List (String × JSVal))

/-- Result of JS `ToNumber`: a number or `NaN`. -/
inductive JSNum where
  | nan
  | num (n : Int)
deriving DecidableEq

/-- Digits of a decimal string, most significant first; `none` when the
list is empty or holds a non-digit. -/
def digitsToNat (cs : List Char) : Option Nat :=
  if cs.isEmpty then none
  else cs.foldl (fun acc c =>
    match acc with
    | none => none
    | some n => if c.isDigit then some (n * 10 + (c.toNat - 48)) else none) (some 0)

/-- JS `s.slice(0, n)`: the first `n` characters. -/
def strTake (s : String) (n : Nat) : String :=
  ⟨s.data.take n⟩

/-- JS `s.toUpperCase()` (ASCII fragment). -/
def strUpper (s : String) : String :=
  ⟨s.data.map Char.toUpper⟩

/-- JS `s.trim()`: strip whitespace from both ends. -/
def strTrim (s : String) : String :=
  ⟨((s.data.dropWhile Char.isWhitespace).reverse.dropWhile Char.isWhitespace).reverse⟩

/-- JS `ToNumber` on a string (`Number(s)`), in its decimal-integer
fragment: surrounding whitespace is trimmed, the empty string converts
to `0`, an optional sign followed by decimal digits converts to the
signed value, anything else (such as `"abc"`) converts to `NaN`. -/
def strToNumber (s : String) : JSNum :=
  let t := strTrim s
  if t = "" then .num 0
  else
    match t.data with
    | '-' :: rest =>
        match digitsToNat rest with
        | some n => .num (-(n : Int))
        | none => .nan
    | '+' :: rest =>
        match digitsToNat rest with
        | some n => .num (n : Int)
        | none => .nan
    | cs =>
        match digitsToNat cs with
        | some n => .num (n : Int)
        | none => .nan

/-- JS `ToNumber` (the unary `+` coercion). -/
def toNumber : JSVal → JSNum
  | .undef => .nan
  | .vnull => .num 0
  | .vbool b => .num (if b then 1 else 0)
  | .vnum n => .num n
  | .vnan => .nan
  | .vstr s => strToNumber s
  | .vobj _ => .nan

/-- JS truthiness: `undefined`, `null`, `false`, `0`, `NaN` and `""`
are falsy, every other value is truthy. -/
def truthy : JSVal → Bool
  | .undef => false
  | .vnull => false
  | .vbool b => b
  | .vnum n => n != 0
  | .vnan => false
  | .vstr s => s != ""
  | .vobj _ => true

/-- JS `String(v)` coercion (integer fragment for numbers). -/
def jsToString : JSVal → String
  | .undef => "undefined"
  | .vnull => "null"
  | .vbool b => if b then "true" else "false"
  | .vnum n => toString n
  | .vnan => "NaN"
  | .vstr s => s
  | .vobj _ => "[object Object]"

/-- The idiom `+v || d`: coerce `v` to a number; when the result is
`NaN` or `0` (both falsy) fall back to the default `d`, otherwise keep
the number. -/
def numOr (v : JSVal) (d : Int) : Int :=
  match toNumber v with
  | .nan => d
  | .num n => if n = 0 then d else n

/-- The idiom `v || d` on values: keep `v` when truthy, else `d`. -/
def valOr (v d : JSVal) : JSVal :=
  if truthy v then v else d

/-- The idiom `v || d` for a string-or-absent field such as `msg.name`:
a missing or empty string falls back to the default. -/
def strOr (v : Option String) (d : String) : String :=
  match v with
  | some s => if s = "" then d else s
  | none => d

/-! ## Association-list embedding of JavaScript `Map` -/

variable {κ : Type} {α : Type} [DecidableEq κ]

/-- `Map.get`. -/
def alookup (k : κ) : List (κ × α) → Option α
  | [] => none
  | p :: rest => if p.1 = k then some p.2 else alookup k rest

/-- `Map.set`: overwrite the entry in place when the key is present,
append otherwise. -/
def aset (k : κ) (v : α) (l : List (κ × α)) : List (κ × α) :=
  if (alookup k l).isSome then l.map (fun p => if p.1 = k then (k, v) else p)
  else l ++ [(k, v)]

/-- `Map.delete`. -/
def aerase (k : κ) (l : List (κ × α)) : List (κ × α) :=
  l.filter (fun p => p.1 ≠ k)

/-- Mutation of the object stored at key `k` through a shared
reference: every alias of that object observes the update, and nothing
happens when no entry holds it. -/
def aupdate (k : κ) (f : α → α) (l : List (κ × α)) : List (κ × α) :=
  l.map (fun p => if p.1 = k then (k, f p.2) else p)

/-! ## Server data model -/

/-- A normalised position state, as built by the `state` handler. -/
structure JSState where
  x : Int
  y : Int
  z : Int
  yaw : Int
  pitch : Int
  chap : Int
  anim : JSVal

/-- The per-connection player record kept in `clients` and in the
party's `members` map (`{ id, name, color, ws, partyCode, lastState }`). -/
structure Player where
  id : String
  name : String
  color : String
  ws : Nat
  partyCode : String
  lastState : Option JSState

/-- A party: `{ code, members: Map<id, player> }`. -/
structure Party where
  code : String
  members : List (String × Player)

/-- The server registry: `parties` (code → party), `clients`
(socket → player) and the `nextId` counter. -/
structure ServerState where
  parties : List (String × Party)
  clients : List (Nat × Player)
  nextId : Nat

/-- The state when the process starts: no parties, no clients,
`nextId = 1`. -/
def initState : ServerState := ⟨[], [], 1⟩

/-- The `COLORS` palette. -/
def COLORS : List String :=
  ["#ff4444", "#44aaff", "#44ff88", "#ffcc00", "#ff88cc", "#88ffff", "#ff8844", "#cc88ff"]

/-- A member summary as sent in `welcome.players`. -/
structure PlayerInfo where
  id : String
  name : String
  color : String
  state : Option JSState

/-- Server → client messages. -/
inductive ServerMsg where
  | welcome (id : String) (code : String) (players : List PlayerInfo) (color : String)
  | joined (id : String) (name : String) (color : String)
  | left (id : String)
  | state (id : String) (st : JSState)
  | chat (id : String) (name : String) (text : String)
  | event (id : String) (ev : JSVal) (data : JSVal)
  | error (msg : String)

/-- Client → server messages after `JSON.parse`.  `name` and `code`
carry the string-or-absent fragment the handlers consume; `other`
stands for any payload whose `type` matches no handler. -/
inductive ClientMsg where
  | create (name : Option String)
  | join (name : Option String) (code : Option String)
  | state (x y z yaw pitch chap anim : JSVal)
  | chat (text : JSVal)
  | event (ev : JSVal) (data : JSVal)
  | other

/-- `broadcast(party, obj, excludeId)`: one `send` per member whose id
differs from `excludeId`, in member-map insertion order; the default
`excludeId = null` (here `none`) excludes nobody, since no id equals
`null`. -/
def broadcastMsgs (party : Party) (m : ServerMsg) (excludeId : Option String) :
    List (Nat × ServerMsg) :=
  (party.members.filter (fun p => some p.1 ≠ excludeId)).map (fun p => (p.2.ws, m))

/-- The member record allocated by `create` and `join`:
`{ id: String(nextId++), name: (msg.name || genName()).slice(0,20),
color: COLORS[(nextId - 1) % COLORS.length], ws, partyCode: code,
lastState: null }` — the id uses the pre-increment counter value, the
color index the post-increment one. -/
def newPlayer (s : ServerState) (ws : Nat) (nameArg : Option String) (gname : String)
    (code : String) : Player :=
  ⟨toString s.nextId, strTake (strOr nameArg gname) 20,
   COLORS.getD ((s.nextId + 1 - 1) % COLORS.length) "", ws, code, none⟩

/-- The normalised state object the `state` handler builds. -/
def normState (x y z yaw pitch chap anim : JSVal) : JSState :=
  ⟨numOr x 0, numOr y 0, numOr z 0, numOr yaw 0, numOr pitch 0,
   numOr chap 1, valOr anim (.vstr "idle")⟩

/-- `info.lastState = state`: the in-place mutation of a member record. -/
def withLast (st : JSState) (m : Player) : Player :=
  { m with lastState := some st }

/-! ## Message handlers

Each handler takes the registry, the connection handle `ws` the message
arrived on, and the message's fields, and returns the updated registry
together with the list of `send` invocations it performs. -/

/-- `let code = genCode(); while (parties.has(code)) code = genCode()`:
the first candidate from the oracle stream that is not a live party
code; `none` models the loop never finding one. -/
def pickFreshCode (cands : List String) (parties : List (String × Party)) : Option String :=
  cands.find? (fun c => (alookup c parties).isNone)

/-- The `create` handler: reject when the connection already resolves
to a member, otherwise allocate id `String(nextId++)`, name
`(msg.name || genName()).slice(0, 20)`, color
`COLORS[(nextId - 1) % COLORS.length]` (read after the increment) and a
fresh code; install the one-member party and reply `welcome` with an
empty `players` list. -/
def handleCreate (s : ServerState) (ws : Nat) (nameArg : Option String)
    (codeOracle : List String) (gname : String) :
    Option (ServerState × List (Nat × ServerMsg)) :=
  match alookup ws s.clients with
  | some _ => some (s, [(ws, .error "Already in a party.")])
  | none =>
    let id := toString s.nextId
    let nextId := s.nextId + 1
    let name := strTake (strOr nameArg gname) 20
    let color := COLORS.getD ((nextId - 1) % COLORS.length) ""
    match pickFreshCode codeOracle s.parties with
    | none => none
    | some code =>
      let player : Player := ⟨id, name, color, ws, code, none⟩
      let party : Party := ⟨code, [(id, player)]⟩
      some
        ({ parties := aset code party s.parties,
           clients := aset ws player s.clients,
           nextId := nextId },
         [(ws, .welcome id code [] color)])

/-- The code normalisation `(msg.code || '').toUpperCase().trim()`
(`msg.code || ''` is the identity on a present string and `''` on an
absent one, so `Option.getD` captures it). -/
def normCode (codeArg : Option String) : String :=
  strTrim (strUpper (codeArg.getD ""))

/-- The `join` handler: reject when already in a party; normalise the
code by `(msg.code || '').toUpperCase().trim()`; reject an unknown code
and a party with `members.size >= 8`; otherwise allocate the member
(same id/name/color scheme as `create`), collect the existing members
for the joiner's `welcome`, insert the member, and announce `joined` to
everyone else. -/
def handleJoin (s : ServerState) (ws : Nat) (nameArg : Option String)
    (codeArg : Option String) (gname : String) :
    ServerState × List (Nat × ServerMsg) :=
  match alookup ws s.clients with
  | some _ => (s, [(ws, .error "Already in a party.")])
  | none =>
    let code := normCode codeArg
    match alookup code s.parties with
    | none => (s, [(ws, .error ("Party \"" ++ code ++ "\" not found."))])
    | some party =>
      if party.members.length ≥ 8 then
        (s, [(ws, .error "Party is full (max 8).")])
      else
        let id := toString s.nextId
        let nextId := s.nextId + 1
        let name := strTake (strOr nameArg gname) 20
        let color := COLORS.getD ((nextId - 1) % COLORS.length) ""
        let player : Player := ⟨id, name, color, ws, code, none⟩
        let existing := party.members.map (fun p => PlayerInfo.mk p.2.id p.2.name p.2.color p.2.lastState)
        let party' : Party := { party with members := aset id player party.members }
        ({ parties := aset code party' s.parties,
           clients := aset ws player s.clients,
           nextId := nextId },
         (ws, ServerMsg.welcome id code existing color) ::
           broadcastMsgs party' (.joined id name color) (some id))

/-- The `state` handler: silently drop when the connection is
unresolved or its party is gone; otherwise normalise each field
(`+msg.f || 0`, `+msg.chap || 1`, `msg.anim || 'idle'`), store the
result as the sender's `lastState` (a mutation visible through both
`clients` and the party's member map), and broadcast it excluding the
sender. -/
def handleState (s : ServerState) (ws : Nat) (x y z yaw pitch chap anim : JSVal) :
    ServerState × List (Nat × ServerMsg) :=
  match alookup ws s.clients with
  | none => (s, [])
  | some info =>
    match alookup info.partyCode s.parties with
    | none => (s, [])
    | some party =>
      let st : JSState :=
        ⟨numOr x 0, numOr y 0, numOr z 0, numOr yaw 0, numOr pitch 0,
         numOr chap 1, valOr anim (.vstr "idle")⟩
      let setLS : Player → Player := fun m => { m with lastState := some st }
      let party' : Party := { party with members := aupdate info.id setLS party.members }
      ({ s with
          clients := aupdate ws setLS s.clients,
          parties := aset info.partyCode party' s.parties },
       broadcastMsgs party' (.state info.id st) (some info.id))

/-- The `chat` handler: silently drop when unresolved or the party is
gone; otherwise build `String(msg.text || '').slice(0, 120)`, broadcast
`chat{id,name,text}` with no exclusion, then `send` the same message to
the sender once more (the `// echo back` line). -/
def handleChat (s : ServerState) (ws : Nat) (t : JSVal) :
    ServerState × List (Nat × ServerMsg) :=
  match alookup ws s.clients with
  | none => (s, [])
  | some info =>
    match alookup info.partyCode s.parties with
    | none => (s, [])
    | some party =>
      let text := strTake (jsToString (valOr t (.vstr ""))) 120
      (s, broadcastMsgs party (.chat info.id info.name text) none ++
            [(ws, .chat info.id info.name text)])

/-- The `event` handler: silently drop when unresolved or the party is
gone; otherwise broadcast `event{id, ev, data: msg.data || {}}`
excluding the sender. -/
def handleEvent (s : ServerState) (ws : Nat) (ev data : JSVal) :
    ServerState × List (Nat × ServerMsg) :=
  match alookup ws s.clients with
  | none => (s, [])
  | some info =>
    match alookup info.partyCode s.parties with
    | none => (s, [])
    | some party =>
      (s, broadcastMsgs party (.event info.id ev (valOr data (.vobj []))) (some info.id))

/-- The `ws.on('message')` dispatcher.  `none` input models a payload
`JSON.parse` rejects (silently dropped); a `ClientMsg.other` models any
parsed payload whose `type` matches no branch (also silently ignored).
The result is `none` only when `create`'s code-generation loop
diverges. -/
def handleMessage (s : ServerState) (ws : Nat) (raw : Option ClientMsg)
    (codeOracle : List String) (gname : String) :
    Option (ServerState × List (Nat × ServerMsg)) :=
  match raw with
  | none => some (s, [])
  | some msg =>
    match msg with
    | .create n => handleCreate s ws n codeOracle gname
    | .join n c => some (handleJoin s ws n c gname)
    | .state x y z yaw pitch chap anim => some (handleState s ws x y z yaw pitch chap anim)
    | .chat t => some (handleChat s ws t)
    | .event ev data => some (handleEvent s ws ev data)
    | .other => some (s, [])

/-- The `ws.on('close')` hook: look the connection up in `clients`; if
unresolved do nothing.  Otherwise remove the member from its party (when
the party still exists), broadcast `left{id}` to the remaining members,
dissolve the party when its member count reached zero, and finally
delete the connection from `clients`. -/
def handleClose (s : ServerState) (ws : Nat) : ServerState × List (Nat × ServerMsg) :=
  match alookup ws s.clients with
  | none => (s, [])
  | some info =>
    match alookup info.partyCode s.parties with
    | some party =>
      let party' : Party := { party with members := aerase info.id party.members }
      let out := broadcastMsgs party' (.left info.id) none
      let parties' :=
        if party'.members.length = 0 then aerase info.partyCode s.parties
        else aset info.partyCode party' s.parties
      (⟨parties', aerase ws s.clients, s.nextId⟩, out)
    | none => ({ s with clients := aerase ws s.clients }, [])

/-! ## Reachable registry states -/

/-- One externally-triggered step of the server: an inbound message on
some connection (with arbitrary oracle outcomes for the random
generators) or a connection close. -/
inductive Step : ServerState → ServerState → Prop where
  | msg {s : ServerState} (ws : Nat) (raw : Option ClientMsg) (codeOracle : List String)
      (gname : String) {s' : ServerState} (out : List (Nat × ServerMsg))
      (h : handleMessage s ws raw codeOracle gname = some (s', out)) : Step s s'
  | close {s : ServerState} (ws : Nat) {s' : ServerState} (out : List (Nat × ServerMsg))
      (h : handleClose s ws = (s', out)) : Step s s'

/-- A registry state the server can reach from process start. -/
def Reachable (s : ServerState) : Prop :=
  Relation.ReflTransGen Step initState s

/-! ## Specification predicates -/

/-- Every live party holds between 1 and 8 members. -/
def SizesOk (s : ServerState) : Prop :=
  ∀ pr ∈ s.parties, 1 ≤ pr.2.members.length ∧ pr.2.members.length ≤ 8

/-- Whether a server → client message is an `error{msg}` reply. -/
def isErrorMsg : ServerMsg → Bool
  | .error _ => true
  | _ => false

/-- How many entries of the association list carry the key `k`. -/
def countKey (k : κ) (l : List (κ × α)) : Nat :=
  (l.filter (fun p => p.1 = k)).length

/-- The four conditions under which the server answers with an
`error{msg}` reply: `create` while the connection already resolves to a
member, `join` while it already resolves to a member, `join` with a
normalised code that has no registry entry, and `join` to a party that
already holds 8 (or more) members. -/
def WantsError (s : ServerState) (ws : Nat) (raw : Option ClientMsg) : Prop :=
  (∃ n, raw = some (.create n) ∧ (alookup ws s.clients).isSome) ∨
  (∃ n c, raw = some (.join n c) ∧ (alookup ws s.clients).isSome) ∨
  (∃ n c, raw = some (.join n c) ∧ alookup ws s.clients = none ∧
    alookup (normCode c) s.parties = none) ∨
  (∃ n c party, raw = some (.join n c) ∧ alookup ws s.clients = none ∧
    alookup (normCode c) s.parties = some party ∧ 8 ≤ party.members.length)

/-- The silently-dropped inputs: unparseable payloads, unknown message
kinds, and `state`/`chat`/`event` from a connection that does not
resolve to a member or whose member's party is gone. -/
def SilentDrop (s : ServerState) (ws : Nat) (raw : Option ClientMsg) : Prop :=
  raw = none ∨ raw = some .other ∨
  (∃ msg, raw = some msg ∧
    ((∃ x y z yaw pitch chap anim, msg = .state x y z yaw pitch chap anim) ∨
      (∃ t, msg = .chat t) ∨ (∃ ev d, msg = .event ev d)) ∧
    (alookup ws s.clients = none ∨
      ∃ info, alookup ws s.clients = some info ∧
        alookup info.partyCode s.parties = none))

/-! ## Concrete registry states for witnesses and counterexamples -/

/-- A two-member party `"ABCD"`, as after one `create` and one `join`. -/
def alice : Player := ⟨"1", "Alice", "#44aaff", 10, "ABCD", none⟩

/-- Second member of the sample party. -/
def bob : Player := ⟨"2", "Bob", "#44ff88", 20, "ABCD", none⟩

/-- The sample party holding `alice` and `bob`. -/
def sampleParty : Party := ⟨"ABCD", [("1", alice), ("2", bob)]⟩

/-- Registry with the sample party; `alice` is on socket 10, `bob` on
socket 20. -/
def sampleState : ServerState :=
  ⟨[("ABCD", sampleParty)], [(10, alice), (20, bob)], 3⟩

/-- A generic occupant for capacity tests. -/
def crowd (i : Nat) : Player := ⟨toString i, "P", "#ff4444", 100 + i, "FULL", none⟩

/-- A party already holding 8 members. -/
def fullParty : Party :=
  ⟨"FULL", [("1", crowd 1), ("2", crowd 2), ("3", crowd 3), ("4", crowd 4),
            ("5", crowd 5), ("6", crowd 6), ("7", crowd 7), ("8", crowd 8)]⟩

/-- Registry holding the 8-member party. -/
def sFull : ServerState := ⟨[("FULL", fullParty)], [], 9⟩

/-- A party holding 7 members. -/
def sevenParty : Party :=
  ⟨"SEVEN", [("1", crowd 1), ("2", crowd 2), ("3", crowd 3), ("4", crowd 4),
             ("5", crowd 5), ("6", crowd 6), ("7", crowd 7)]⟩

/-- Registry holding the 7-member party. -/
def sSeven : ServerState := ⟨[("SEVEN", sevenParty)], [], 8⟩

/-! ## Association-list lemmas -/

theorem alookup_setmap (k : κ) (v : α) (l : List (κ × α)) :
    alookup k (l.map (fun p => if p.1 = k then (k, v) else p)) =
      if (alookup k l).isSome then some v else none := by
  induction l with
  | nil => simp [alookup]
  | cons p rest ih =>
    by_cases h : p.1 = k
    · simp [alookup, h]
    · simp [alookup, h, ih]

theorem alookup_append (k : κ) (l1 l2 : List (κ × α)) :
    alookup k (l1 ++ l2) =
      match alookup k l1 with
      | some v => some v
      | none => alookup k l2 := by
  induction l1 with
  | nil => simp [alookup]
  | cons p rest ih =>
    by_cases h : p.1 = k <;> simp [alookup, h, ih]

theorem alookup_aset_self (k : κ) (v : α) (l : List (κ × α)) :
    alookup k (aset k v l) = some v := by
  unfold aset
  split
  · rw [alookup_setmap]; simp [*]
  · rename_i h
    rw [alookup_append]
    cases hl : alookup k l with
    | none => simp [alookup]
    | some w => rw [hl] at h; simp at h

theorem alookup_setmap_ne (k k' : κ) (v : α) (l : List (κ × α)) (hne : k' ≠ k) :
    alookup k' (l.map (fun p => if p.1 = k then (k, v) else p)) = alookup k' l := by
  induction l with
  | nil => simp [alookup]
  | cons p rest ih =>
    by_cases h : p.1 = k <;> simp [alookup, h, hne, Ne.symm hne, ih]

theorem alookup_aset_ne (k k' : κ) (v : α) (l : List (κ × α)) (hne : k' ≠ k) :
    alookup k' (aset k v l) = alookup k' l := by
  unfold aset
  split
  · exact alookup_setmap_ne k k' v l hne
  · rw [alookup_append]
    cases hl : alookup k' l with
    | none => simp [alookup, hl, Ne.symm hne]
    | some w => simp [hl]

theorem length_aset (k : κ) (v : α) (l : List (κ × α)) :
    (aset k v l).length =
      if (alookup k l).isSome then l.length else l.length + 1 := by
  unfold aset; split <;> simp [*]

theorem length_aupdate (k : κ) (f : α → α) (l : List (κ × α)) :
    (aupdate k f l).length = l.length := by
  simp [aupdate]

theorem length_aerase_le (k : κ) (l : List (κ × α)) :
    (aerase k l).length ≤ l.length :=
  List.length_filter_le _ _

theorem mem_aset {x : κ × α} {k : κ} {v : α} {l : List (κ × α)}
    (h : x ∈ aset k v l) : x = (k, v) ∨ x ∈ l := by
  unfold aset at h
  split at h
  · obtain ⟨p, hp, he⟩ := List.mem_map.mp h
    by_cases hk : p.1 = k
    · simp only [hk, if_pos] at he
      exact Or.inl he.symm
    · simp only [hk, if_neg, not_false_iff] at he
      exact Or.inr (he ▸ hp)
  · rcases List.mem_append.mp h with h1 | h1
    · exact Or.inr h1
    · exact Or.inl (by simpa using h1)

theorem mem_aupdate {x : κ × α} {k : κ} {f : α → α} {l : List (κ × α)}
    (h : x ∈ aupdate k f l) : (∃ v, x = (k, f v)) ∨ x ∈ l := by
  obtain ⟨p, hp, he⟩ := List.mem_map.mp h
  by_cases hk : p.1 = k
  · simp only [hk, if_pos] at he
    exact Or.inl ⟨p.2, he.symm⟩
  · simp only [hk, if_neg, not_false_iff] at he
    exact Or.inr (he ▸ hp)

theorem mem_aerase {x : κ × α} {k : κ} {l : List (κ × α)}
    (h : x ∈ aerase k l) : x ∈ l :=
  (List.mem_filter.mp h).1

theorem alookup_aerase_self (k : κ) (l : List (κ × α)) :
    alookup k (aerase k l) = none := by
  induction l with
  | nil => rfl
  | cons p rest ih =>
    by_cases h : p.1 = k
    · simpa [aerase, List.filter_cons, h] using ih
    · simpa [aerase, List.filter_cons, h, alookup] using ih

theorem alookup_mem {k : κ} {v : α} {l : List (κ × α)}
    (h : alookup k l = some v) : (k, v) ∈ l := by
  induction l with
  | nil => simp [alookup] at h
  | cons p rest ih =>
    rw [alookup] at h
    split at h
    · rename_i hp
      injection h with h
      subst hp
      subst h
      exact List.mem_cons_self _ _
    · exact List.mem_cons_of_mem _ (ih h)

theorem countKey_eq_zero {k : κ} {l : List (κ × α)}
    (h : alookup k l = none) : countKey k l = 0 := by
  induction l with
  | nil => rfl
  | cons p rest ih =>
    rw [alookup] at h
    split at h
    · simp at h
    · rename_i hp
      simpa [countKey, List.filter_cons, hp] using ih h

theorem countKey_append (k : κ) (l1 l2 : List (κ × α)) :
    countKey k (l1 ++ l2) = countKey k l1 + countKey k l2 := by
  simp [countKey, List.filter_append]

theorem alookup_aupdate_self (k : κ) (f : α → α) (l : List (κ × α)) :
    alookup k (aupdate k f l) = (alookup k l).map f := by
  induction l with
  | nil => rfl
  | cons p rest ih =>
    simp only [aupdate] at ih
    by_cases h : p.1 = k <;> simp [aupdate, alookup, h, ih]

theorem broadcastMsgs_none (party : Party) (m : ServerMsg) :
    broadcastMsgs party m none = party.members.map (fun p => (p.2.ws, m)) := by
  simp [broadcastMsgs]

theorem mem_broadcastMsgs {q : Nat × ServerMsg} {party : Party} {m : ServerMsg}
    {e : Option String} (h : q ∈ broadcastMsgs party m e) : q.2 = m := by
  unfold broadcastMsgs at h
  obtain ⟨p, _, he⟩ := List.mem_map.mp h
  exact he ▸ rfl

/-! ## Handler-shape lemmas -/

theorem handleClose_not_resolved {s : ServerState} {ws : Nat}
    (h : alookup ws s.clients = none) : handleClose s ws = (s, []) := by
  unfold handleClose
  rw [h]

theorem handleClose_clients_not_resolved (s : ServerState) (ws : Nat) :
    alookup ws (handleClose s ws).1.clients = none := by
  unfold handleClose
  split
  · rename_i hc
    exact hc
  · split
    · exact alookup_aerase_self ws s.clients
    · exact alookup_aerase_self ws s.clients

theorem handleCreate_in_party {s : ServerState} {ws : Nat} {nameArg : Option String}
    {oracle : List String} {gname : String} {info : Player}
    (h : alookup ws s.clients = some info) :
    handleCreate s ws nameArg oracle gname = some (s, [(ws, .error "Already in a party.")]) := by
  unfold handleCreate
  rw [h]

theorem handleCreate_ok {s : ServerState} {ws : Nat} {nameArg : Option String}
    {oracle : List String} {gname : String} {code : String}
    (h : alookup ws s.clients = none)
    (hc : pickFreshCode oracle s.parties = some code) :
    handleCreate s ws nameArg oracle gname =
      some ({ parties := aset code ⟨code, [(toString s.nextId, newPlayer s ws nameArg gname code)]⟩ s.parties,
              clients := aset ws (newPlayer s ws nameArg gname code) s.clients,
              nextId := s.nextId + 1 },
            [(ws, .welcome (toString s.nextId) code [] (newPlayer s ws nameArg gname code).color)]) := by
  unfold handleCreate
  rw [h, hc]
  rfl

theorem handleCreate_stuck {s : ServerState} {ws : Nat} {nameArg : Option String}
    {oracle : List String} {gname : String}
    (h : alookup ws s.clients = none)
    (hc : pickFreshCode oracle s.parties = none) :
    handleCreate s ws nameArg oracle gname = none := by
  unfold handleCreate
  rw [h, hc]

theorem handleJoin_in_party {s : ServerState} {ws : Nat} {nameArg codeArg : Option String}
    {gname : String} {info : Player}
    (h : alookup ws s.clients = some info) :
    handleJoin s ws nameArg codeArg gname = (s, [(ws, .error "Already in a party.")]) := by
  unfold handleJoin
  rw [h]

theorem handleJoin_no_party {s : ServerState} {ws : Nat} {nameArg codeArg : Option String}
    {gname : String}
    (h : alookup ws s.clients = none)
    (hp : alookup (normCode codeArg) s.parties = none) :
    handleJoin s ws nameArg codeArg gname =
      (s, [(ws, .error ("Party \"" ++ normCode codeArg ++ "\" not found."))]) := by
  unfold handleJoin
  rw [h]
  simp only [hp]

theorem handleJoin_full {s : ServerState} {ws : Nat} {nameArg codeArg : Option String}
    {gname : String} {party : Party}
    (h : alookup ws s.clients = none)
    (hp : alookup (normCode codeArg) s.parties = some party)
    (hlen : 8 ≤ party.members.length) :
    handleJoin s ws nameArg codeArg gname = (s, [(ws, .error "Party is full (max 8).")]) := by
  unfold handleJoin
  rw [h]
  simp only [hp]
  rw [if_pos hlen]

theorem handleJoin_ok {s : ServerState} {ws : Nat} {nameArg codeArg : Option String}
    {gname : String} {party : Party}
    (h : alookup ws s.clients = none)
    (hp : alookup (normCode codeArg) s.parties = some party)
    (hlen : ¬ 8 ≤ party.members.length) :
    handleJoin s ws nameArg codeArg gname =
      ({ parties := aset (normCode codeArg)
            (Party.mk party.code
              (aset (toString s.nextId) (newPlayer s ws nameArg gname (normCode codeArg))
                party.members))
            s.parties,
         clients := aset ws (newPlayer s ws nameArg gname (normCode codeArg)) s.clients,
         nextId := s.nextId + 1 },
       (ws, ServerMsg.welcome (toString s.nextId) (normCode codeArg)
          (party.members.map (fun p => PlayerInfo.mk p.2.id p.2.name p.2.color p.2.lastState))
          (newPlayer s ws nameArg gname (normCode codeArg)).color) ::
        broadcastMsgs
          (Party.mk party.code
            (aset (toString s.nextId) (newPlayer s ws nameArg gname (normCode codeArg))
              party.members))
          (.joined (toString s.nextId) (newPlayer s ws nameArg gname (normCode codeArg)).name
            (newPlayer s ws nameArg gname (normCode codeArg)).color)
          (some (toString s.nextId))) := by
  unfold handleJoin
  rw [h]
  simp only [hp]
  rw [if_neg hlen]
  rfl

theorem handleState_not_resolved {s : ServerState} {ws : Nat} {x y z yaw pitch chap anim : JSVal}
    (h : alookup ws s.clients = none) :
    handleState s ws x y z yaw pitch chap anim = (s, []) := by
  unfold handleState
  rw [h]

theorem handleState_no_party {s : ServerState} {ws : Nat} {x y z yaw pitch chap anim : JSVal}
    {info : Player}
    (h : alookup ws s.clients = some info)
    (hp : alookup info.partyCode s.parties = none) :
    handleState s ws x y z yaw pitch chap anim = (s, []) := by
  unfold handleState
  rw [h]
  simp only [hp]

theorem handleState_ok {s : ServerState} {ws : Nat} {x y z yaw pitch chap anim : JSVal}
    {info : Player} {party : Party}
    (h : alookup ws s.clients = some info)
    (hp : alookup info.partyCode s.parties = some party) :
    handleState s ws x y z yaw pitch chap anim =
      ({ s with
          clients := aupdate ws (withLast (normState x y z yaw pitch chap anim)) s.clients,
          parties := aset info.partyCode
            (Party.mk party.code
              (aupdate info.id (withLast (normState x y z yaw pitch chap anim)) party.members))
            s.parties },
       broadcastMsgs
          (Party.mk party.code
            (aupdate info.id (withLast (normState x y z yaw pitch chap anim)) party.members))
          (.state info.id (normState x y z yaw pitch chap anim))
          (some info.id)) := by
  unfold handleState
  rw [h]
  simp only [hp]
  rfl

theorem handleChat_not_resolved {s : ServerState} {ws : Nat} {t : JSVal}
    (h : alookup ws s.clients = none) :
    handleChat s ws t = (s, []) := by
  unfold handleChat
  rw [h]

theorem handleChat_no_party {s : ServerState} {ws : Nat} {t : JSVal} {info : Player}
    (h : alookup ws s.clients = some info)
    (hp : alookup info.partyCode s.parties = none) :
    handleChat s ws t = (s, []) := by
  unfold handleChat
  rw [h]
  simp only [hp]

theorem handleChat_ok {s : ServerState} {ws : Nat} {t : JSVal} {info : Player} {party : Party}
    (h : alookup ws s.clients = some info)
    (hp : alookup info.partyCode s.parties = some party) :
    handleChat s ws t =
      (s, broadcastMsgs party
            (.chat info.id info.name (strTake (jsToString (valOr t (.vstr ""))) 120)) none ++
          [(ws, .chat info.id info.name (strTake (jsToString (valOr t (.vstr ""))) 120))]) := by
  unfold handleChat
  rw [h]
  simp only [hp]

theorem handleEvent_not_resolved {s : ServerState} {ws : Nat} {ev data : JSVal}
    (h : alookup ws s.clients = none) :
    handleEvent s ws ev data = (s, []) := by
  unfold handleEvent
  rw [h]

theorem handleEvent_no_party {s : ServerState} {ws : Nat} {ev data : JSVal} {info : Player}
    (h : alookup ws s.clients = some info)
    (hp : alookup info.partyCode s.parties = none) :
    handleEvent s ws ev data = (s, []) := by
  unfold handleEvent
  rw [h]
  simp only [hp]

theorem handleEvent_ok {s : ServerState} {ws : Nat} {ev data : JSVal} {info : Player}
    {party : Party}
    (h : alookup ws s.clients = some info)
    (hp : alookup info.partyCode s.parties = some party) :
    handleEvent s ws ev data =
      (s, broadcastMsgs party (.event info.id ev (valOr data (.vobj []))) (some info.id)) := by
  unfold handleEvent
  rw [h]
  simp only [hp]

/-! ## Claims -/

/-- C9: the connection-close teardown is idempotent — after one
invocation of the close hook for a connection handle, a second
invocation leaves the registry untouched and sends nothing, so no
second `left{id}` broadcast (or any other output) can result from
repeated closes of one handle. -/
theorem close_idempotent (s : ServerState) (ws : Nat) :
    handleClose (handleClose s ws).1 ws = ((handleClose s ws).1, []) :=
  handleClose_not_resolved (handleClose_clients_not_resolved s ws)

/-- C1 (counterexample): in a two-member party, a `chat` from the
member on socket 10 produces three `send` calls — the broadcast (which
excludes nobody) reaches sockets 10 and 20, and the explicit echo hits
socket 10 again — so the sender receives the chat message twice, not
exactly once. -/
theorem chat_sender_double_delivery_cex :
    (handleChat sampleState 10 (.vstr "hi")).2 =
      [(10, .chat "1" "Alice" "hi"), (20, .chat "1" "Alice" "hi"),
        (10, .chat "1" "Alice" "hi")] ∧
    ((handleChat sampleState 10 (.vstr "hi")).2.filter (fun p => p.1 = 10)).length ≠ 1 :=
  ⟨rfl, by decide⟩

/-- C1 (amended): for a `chat` from a resolved member of an existing
party, the text is truncated to 120 characters and `chat{id,name,text}`
is sent once to every member of the party (sender included, since the
broadcast passes no `excludeId`), followed by one additional echo copy
to the sender — so every non-sender member receives it exactly once and
the sender's socket receives it twice. -/
theorem chat_delivery_shape (s : ServerState) (ws : Nat) (t : JSVal) (info : Player)
    (party : Party)
    (h1 : alookup ws s.clients = some info)
    (h2 : alookup info.partyCode s.parties = some party)
    (hm : ∃ m, (info.id, m) ∈ party.members ∧ m.ws = ws) :
    (handleChat s ws t).2 =
      party.members.map (fun p =>
          (p.2.ws, ServerMsg.chat info.id info.name (strTake (jsToString (valOr t (.vstr ""))) 120))) ++
        [(ws, ServerMsg.chat info.id info.name (strTake (jsToString (valOr t (.vstr ""))) 120))] ∧
    2 ≤ ((handleChat s ws t).2.filter (fun p => p.1 = ws)).length := by
  have hshape : (handleChat s ws t).2 =
      party.members.map (fun p =>
          (p.2.ws, ServerMsg.chat info.id info.name (strTake (jsToString (valOr t (.vstr ""))) 120))) ++
        [(ws, ServerMsg.chat info.id info.name (strTake (jsToString (valOr t (.vstr ""))) 120))] := by
    simp [handleChat, h1, h2, broadcastMsgs_none]
  refine ⟨hshape, ?_⟩
  rw [hshape, List.filter_append, List.length_append]
  obtain ⟨m, hm1, hm2⟩ := hm
  have hmem2 : ((ws : Nat),
      ServerMsg.chat info.id info.name (strTake (jsToString (valOr t (.vstr ""))) 120)) ∈
      party.members.map (fun p =>
        (p.2.ws, ServerMsg.chat info.id info.name (strTake (jsToString (valOr t (.vstr ""))) 120))) :=
    List.mem_map.mpr ⟨(info.id, m), hm1, by simp [hm2]⟩
  have hmem3 : ((ws : Nat),
      ServerMsg.chat info.id info.name (strTake (jsToString (valOr t (.vstr ""))) 120)) ∈
      (party.members.map (fun p =>
        (p.2.ws, ServerMsg.chat info.id info.name (strTake (jsToString (valOr t (.vstr ""))) 120)))).filter
        (fun p => p.1 = ws) :=
    List.mem_filter.mpr ⟨hmem2, by simp⟩
  have h1len := List.length_pos_of_mem hmem3
  have h2len : (List.filter (fun p : Nat × ServerMsg => p.1 = ws)
      [(ws, ServerMsg.chat info.id info.name (strTake (jsToString (valOr t (.vstr ""))) 120))]).length = 1 := by
    simp
  omega

/-- C1 (amended) witness: the amended delivery shape at the concrete
two-member party. -/
theorem chat_delivery_shape_witness :
    (handleChat sampleState 10 (.vstr "hi")).2 =
      sampleParty.members.map (fun p =>
          (p.2.ws, ServerMsg.chat alice.id alice.name (strTake (jsToString (valOr (.vstr "hi") (.vstr ""))) 120))) ++
        [(10, ServerMsg.chat alice.id alice.name (strTake (jsToString (valOr (.vstr "hi") (.vstr ""))) 120))] ∧
    2 ≤ ((handleChat sampleState 10 (.vstr "hi")).2.filter (fun p => p.1 = 10)).length :=
  chat_delivery_shape sampleState 10 (.vstr "hi") alice sampleParty rfl rfl
    ⟨alice, List.mem_cons_self _ _, rfl⟩

/-- C2 (counterexample): the very first member allocated by the process
(the one whose id is `"1"`, created from the start state) receives
color `"#44aaff"`, which is `COLORS[1]` — not
`COLORS[(1 - 1) % 8] = "#ff4444"` as the claim requires: the counter is
incremented by `String(nextId++)` before `COLORS[(nextId - 1) % 8]` is
read. -/
theorem color_offbyone_cex :
    (handleCreate initState 5 (some "Alice") ["ABCD"] "g").map
        (fun r => r.1.clients.map (fun p => (p.2.id, p.2.color))) =
      some [("1", "#44aaff")] ∧
    COLORS.getD ((1 - 1) % COLORS.length) "" = "#ff4444" ∧
    "#44aaff" ≠ "#ff4444" :=
  ⟨rfl, rfl, by decide⟩

/-- C2 (amended): every member allocated by a `create` or `join` step —
the connection was unresolved before the message and resolves to the
player `p` after it — has id `String(n)` for `n` the pre-increment
counter value and color `COLORS[n % 8]` (the index uses the counter
value after the `String(nextId++)` increment, so it is `n`, not
`n - 1`): a round-robin palette with no per-party uniqueness
guarantee. -/
theorem color_assignment (s : ServerState) (ws : Nat) (raw : Option ClientMsg)
    (oracle : List String) (g : String) (s' : ServerState) (out : List (Nat × ServerMsg))
    (h : handleMessage s ws raw oracle g = some (s', out))
    (hnew : alookup ws s.clients = none) (p : Player)
    (hp : alookup ws s'.clients = some p) :
    p.id = toString s.nextId ∧ p.color = COLORS.getD (s.nextId % COLORS.length) "" := by
  cases raw with
  | none =>
    simp only [handleMessage, Option.some.injEq, Prod.mk.injEq] at h
    obtain ⟨rfl, rfl⟩ := h
    rw [hnew] at hp
    cases hp
  | some msg =>
    cases msg with
    | create n =>
      simp only [handleMessage] at h
      cases hc : pickFreshCode oracle s.parties with
      | none => rw [handleCreate_stuck hnew hc] at h; cases h
      | some code =>
        rw [handleCreate_ok hnew hc] at h
        simp only [Option.some.injEq, Prod.mk.injEq] at h
        obtain ⟨rfl, rfl⟩ := h
        rw [alookup_aset_self] at hp
        injection hp with hp
        subst hp
        exact ⟨rfl, by simp [newPlayer]⟩
    | join n c =>
      simp only [handleMessage, Option.some.injEq, Prod.mk.injEq] at h
      cases hpp : alookup (normCode c) s.parties with
      | none =>
        rw [handleJoin_no_party hnew hpp] at h
        obtain ⟨rfl, rfl⟩ := h
        rw [hnew] at hp
        cases hp
      | some party =>
        by_cases hlen : 8 ≤ party.members.length
        · rw [handleJoin_full hnew hpp hlen] at h
          obtain ⟨rfl, rfl⟩ := h
          rw [hnew] at hp
          cases hp
        · rw [handleJoin_ok hnew hpp hlen] at h
          obtain ⟨rfl, rfl⟩ := h
          rw [alookup_aset_self] at hp
          injection hp with hp
          subst hp
          exact ⟨rfl, by simp [newPlayer]⟩
    | state x y z yaw pitch chap anim =>
      simp only [handleMessage, Option.some.injEq, Prod.mk.injEq] at h
      rw [handleState_not_resolved hnew] at h
      obtain ⟨rfl, rfl⟩ := h
      rw [hnew] at hp
      cases hp
    | chat t =>
      simp only [handleMessage, Option.some.injEq, Prod.mk.injEq] at h
      rw [handleChat_not_resolved hnew] at h
      obtain ⟨rfl, rfl⟩ := h
      rw [hnew] at hp
      cases hp
    | event ev d =>
      simp only [handleMessage, Option.some.injEq, Prod.mk.injEq] at h
      rw [handleEvent_not_resolved hnew] at h
      obtain ⟨rfl, rfl⟩ := h
      rw [hnew] at hp
      cases hp
    | other =>
      simp only [handleMessage, Option.some.injEq, Prod.mk.injEq] at h
      obtain ⟨rfl, rfl⟩ := h
      rw [hnew] at hp
      cases hp

/-- C2 (amended) witness: at the start state, the first `create`
allocates the member with id `"1"` and color `COLORS[1 % 8]`. -/
theorem color_assignment_witness :
    (⟨"1", "Alice", "#44aaff", 5, "ABCD", none⟩ : Player).id = toString initState.nextId ∧
    (⟨"1", "Alice", "#44aaff", 5, "ABCD", none⟩ : Player).color =
      COLORS.getD (initState.nextId % COLORS.length) "" :=
  color_assignment initState 5 (some (.create (some "Alice"))) ["ABCD"] "g"
    (⟨[("ABCD", ⟨"ABCD", [("1", ⟨"1", "Alice", "#44aaff", 5, "ABCD", none⟩)]⟩)],
      [(5, ⟨"1", "Alice", "#44aaff", 5, "ABCD", none⟩)], 2⟩)
    [(5, .welcome "1" "ABCD" [] "#44aaff")] rfl rfl
    (⟨"1", "Alice", "#44aaff", 5, "ABCD", none⟩) rfl

/-- C10: a `chat` whose text field is absent, falsy or not a string is
still delivered: for a resolved member of an existing party the
broadcast-plus-echo happens unconditionally, with text `""` when the
field is falsy (absent, `0`, `false`, `null`, `""`) and
`String(value).slice(0, 120)` otherwise. -/
theorem chat_falsy_text_delivered (s : ServerState) (ws : Nat) (t : JSVal) (info : Player)
    (party : Party)
    (h1 : alookup ws s.clients = some info)
    (h2 : alookup info.partyCode s.parties = some party) :
    ∃ text : String,
      (handleChat s ws t).2 =
        party.members.map (fun p => (p.2.ws, ServerMsg.chat info.id info.name text)) ++
          [(ws, ServerMsg.chat info.id info.name text)] ∧
      (truthy t = false → text = "") ∧
      (truthy t = true → text = strTake (jsToString t) 120) := by
  refine ⟨strTake (jsToString (valOr t (.vstr ""))) 120, ?_, ?_, ?_⟩
  · rw [handleChat_ok h1 h2, broadcastMsgs_none]
  · intro ht
    simp [valOr, ht, jsToString, strTake]
  · intro ht
    simp [valOr, ht]

/-- C10 witness: a `chat` carrying the falsy number `0` as text is
delivered to the whole sample party with the empty text. -/
theorem chat_falsy_text_delivered_witness :
    ∃ text : String,
      (handleChat sampleState 10 (.vnum 0)).2 =
        sampleParty.members.map (fun p => (p.2.ws, ServerMsg.chat alice.id alice.name text)) ++
          [(10, ServerMsg.chat alice.id alice.name text)] ∧
      (truthy (.vnum 0) = false → text = "") ∧
      (truthy (.vnum 0) = true → text = strTake (jsToString (.vnum 0)) 120) :=
  chat_falsy_text_delivered sampleState 10 (.vnum 0) alice sampleParty rfl rfl

/-- C4: a successful `create` returns a welcome whose code was not a
live party code at the moment the handler ran (the regeneration loop
only stops at a fresh code), and after installation exactly one party —
the new one — is registered under it. -/
theorem create_code_unique (s : ServerState) (ws : Nat) (n : Option String)
    (oracle : List String) (g : String) (s' : ServerState) (out : List (Nat × ServerMsg))
    (h : handleCreate s ws n oracle g = some (s', out))
    (hnew : alookup ws s.clients = none) :
    ∃ code color, out = [(ws, .welcome (toString s.nextId) code [] color)] ∧
      alookup code s.parties = none ∧ countKey code s'.parties = 1 := by
  cases hc : pickFreshCode oracle s.parties with
  | none => rw [handleCreate_stuck hnew hc] at h; cases h
  | some code =>
    rw [handleCreate_ok hnew hc] at h
    simp only [Option.some.injEq, Prod.mk.injEq] at h
    obtain ⟨rfl, rfl⟩ := h
    have hfresh : alookup code s.parties = none := by
      have := List.find?_some hc
      simpa [Option.isNone_iff_eq_none] using this
    refine ⟨code, (newPlayer s ws n g code).color, rfl, hfresh, ?_⟩
    have hset : aset code (⟨code, [(toString s.nextId, newPlayer s ws n g code)]⟩ : Party) s.parties =
        s.parties ++ [(code, ⟨code, [(toString s.nextId, newPlayer s ws n g code)]⟩)] := by
      unfold aset
      rw [hfresh]
      simp
    rw [hset, countKey_append, countKey_eq_zero hfresh]
    simp [countKey]

/-- C4 witness: the first `create` from the start state installs its
code `"ABCD"` uniquely. -/
theorem create_code_unique_witness :
    ∃ code color, [((5 : Nat), ServerMsg.welcome (toString initState.nextId) code [] color)] =
        [(5, ServerMsg.welcome (toString initState.nextId) code [] color)] ∧
      alookup code initState.parties = none ∧
      countKey code (⟨[("ABCD", ⟨"ABCD", [("1", ⟨"1", "Alice", "#44aaff", 5, "ABCD", none⟩)]⟩)],
        [(5, ⟨"1", "Alice", "#44aaff", 5, "ABCD", none⟩)], 2⟩ : ServerState).parties = 1 := by
  have := create_code_unique initState 5 (some "Alice") ["ABCD"] "g"
    (⟨[("ABCD", ⟨"ABCD", [("1", ⟨"1", "Alice", "#44aaff", 5, "ABCD", none⟩)]⟩)],
      [(5, ⟨"1", "Alice", "#44aaff", 5, "ABCD", none⟩)], 2⟩)
    [(5, .welcome "1" "ABCD" [] "#44aaff")] rfl rfl
  obtain ⟨code, color, h1, h2, h3⟩ := this
  exact ⟨code, color, rfl, h2, h3⟩

/-- C5: with the joiner's connection unresolved (the claim's "handle
not already in a party"), a `join` addressed to a party that already
holds 8 members always replies `PartyFull` and leaves the registry —
hence the party's membership — unchanged; a `join` to a party with 7
members (under an id fresh for that party, which holds for every
counter value the server can actually be at) succeeds: the joiner
receives `welcome` and the party ends up with exactly 8 members. -/
theorem join_full_and_seven (s : ServerState) (ws : Nat) (n c : Option String) (g : String)
    (party : Party)
    (hns : alookup ws s.clients = none)
    (hp : alookup (normCode c) s.parties = some party) :
    (8 ≤ party.members.length →
      handleJoin s ws n c g = (s, [(ws, .error "Party is full (max 8).")])) ∧
    (party.members.length = 7 → alookup (toString s.nextId) party.members = none →
      ∃ party', alookup (normCode c) (handleJoin s ws n c g).1.parties = some party' ∧
        party'.members.length = 8 ∧
        (handleJoin s ws n c g).2.head? = some (ws,
          ServerMsg.welcome (toString s.nextId) (normCode c)
            (party.members.map (fun p => PlayerInfo.mk p.2.id p.2.name p.2.color p.2.lastState))
            (newPlayer s ws n g (normCode c)).color)) := by
  constructor
  · intro hlen
    exact handleJoin_full hns hp hlen
  · intro h7 hfresh
    have hlt : ¬ 8 ≤ party.members.length := by omega
    rw [handleJoin_ok hns hp hlt]
    refine ⟨Party.mk party.code
      (aset (toString s.nextId) (newPlayer s ws n g (normCode c)) party.members),
      alookup_aset_self _ _ _, ?_, rfl⟩
    show (aset (toString s.nextId) (newPlayer s ws n g (normCode c)) party.members).length = 8
    rw [length_aset, hfresh]
    simp [h7]

/-- C5 witness: the full half at the concrete 8-member party, the
success half at the concrete 7-member party. -/
theorem join_full_and_seven_witness :
    handleJoin sFull 300 (some "X") (some "FULL") "g" =
      (sFull, [(300, .error "Party is full (max 8).")]) ∧
    (∃ party', alookup (normCode (some "seven")) ((handleJoin sSeven 300 (some "X") (some "seven") "g").1.parties) = some party' ∧
      party'.members.length = 8 ∧
      (handleJoin sSeven 300 (some "X") (some "seven") "g").2.head? = some (300,
        ServerMsg.welcome (toString sSeven.nextId) (normCode (some "seven"))
          (sevenParty.members.map (fun p => PlayerInfo.mk p.2.id p.2.name p.2.color p.2.lastState))
          (newPlayer sSeven 300 (some "X") "g" (normCode (some "seven"))).color)) :=
  ⟨(join_full_and_seven sFull 300 (some "X") (some "FULL") "g" fullParty rfl rfl).1 (by decide),
   (join_full_and_seven sSeven 300 (some "X") (some "seven") "g" sevenParty rfl rfl).2
     (by decide) rfl⟩

theorem numOr_of_nan {v : JSVal} {d : Int} (h : toNumber v = .nan) : numOr v d = d := by
  unfold numOr
  rw [h]

theorem numOr_of_zero {v : JSVal} {d : Int} (h : toNumber v = .num 0) : numOr v d = d := by
  unfold numOr
  rw [h]
  simp

theorem numOr_of_nonzero {v : JSVal} {d m : Int} (h : toNumber v = .num m) (hm : m ≠ 0) :
    numOr v d = m := by
  unfold numOr
  rw [h]
  simp [hm]

/-- C6: a `state` message from a resolved member of an existing party
stores and broadcasts the field-wise coercion of the raw input: each of
`x`, `y`, `z`, `yaw`, `pitch` becomes `0` when its coercion is `NaN`
(absent or non-numeric, e.g. `x:"abc"`) or the falsy `0`, and passes
through otherwise; `chap` falls back to `1` when its coercion is `NaN`
(omitted) or `0` (falsy), and passes through unchanged for any other
numeric value including negatives such as `-1`; `anim` falls back to
`"idle"` exactly when falsy; the result is stored as the sender's
`lastState`. -/
theorem state_normalization (s : ServerState) (ws : Nat)
    (x y z yaw pitch chap anim : JSVal) (info : Player) (party : Party)
    (h1 : alookup ws s.clients = some info)
    (h2 : alookup info.partyCode s.parties = some party) :
    ∃ st : JSState,
      alookup ws (handleState s ws x y z yaw pitch chap anim).1.clients =
        some (withLast st info) ∧
      (∀ q ∈ (handleState s ws x y z yaw pitch chap anim).2, q.2 = .state info.id st) ∧
      ((toNumber x = .nan ∨ toNumber x = .num 0) → st.x = 0) ∧
      (∀ m : Int, toNumber x = .num m → m ≠ 0 → st.x = m) ∧
      ((toNumber y = .nan ∨ toNumber y = .num 0) → st.y = 0) ∧
      (∀ m : Int, toNumber y = .num m → m ≠ 0 → st.y = m) ∧
      ((toNumber z = .nan ∨ toNumber z = .num 0) → st.z = 0) ∧
      (∀ m : Int, toNumber z = .num m → m ≠ 0 → st.z = m) ∧
      ((toNumber yaw = .nan ∨ toNumber yaw = .num 0) → st.yaw = 0) ∧
      (∀ m : Int, toNumber yaw = .num m → m ≠ 0 → st.yaw = m) ∧
      ((toNumber pitch = .nan ∨ toNumber pitch = .num 0) → st.pitch = 0) ∧
      (∀ m : Int, toNumber pitch = .num m → m ≠ 0 → st.pitch = m) ∧
      ((toNumber chap = .nan ∨ toNumber chap = .num 0) → st.chap = 1) ∧
      (∀ m : Int, toNumber chap = .num m → m ≠ 0 → st.chap = m) ∧
      (truthy anim = false → st.anim = .vstr "idle") ∧
      (truthy anim = true → st.anim = anim) := by
  refine ⟨normState x y z yaw pitch chap anim, ?_, ?_, ?_, ?_, ?_, ?_, ?_, ?_, ?_, ?_, ?_, ?_,
    ?_, ?_, ?_, ?_⟩
  · rw [handleState_ok h1 h2]
    show alookup ws (aupdate ws (withLast (normState x y z yaw pitch chap anim)) s.clients) = _
    rw [alookup_aupdate_self, h1]
    rfl
  · intro q hq
    rw [handleState_ok h1 h2] at hq
    exact mem_broadcastMsgs hq
  · rintro (hx | hx)
    · exact numOr_of_nan hx
    · exact numOr_of_zero hx
  · intro m hm hm0
    exact numOr_of_nonzero hm hm0
  · rintro (hx | hx)
    · exact numOr_of_nan hx
    · exact numOr_of_zero hx
  · intro m hm hm0
    exact numOr_of_nonzero hm hm0
  · rintro (hx | hx)
    · exact numOr_of_nan hx
    · exact numOr_of_zero hx
  · intro m hm hm0
    exact numOr_of_nonzero hm hm0
  · rintro (hx | hx)
    · exact numOr_of_nan hx
    · exact numOr_of_zero hx
  · intro m hm hm0
    exact numOr_of_nonzero hm hm0
  · rintro (hx | hx)
    · exact numOr_of_nan hx
    · exact numOr_of_zero hx
  · intro m hm hm0
    exact numOr_of_nonzero hm hm0
  · rintro (hx | hx)
    · exact numOr_of_nan hx
    · exact numOr_of_zero hx
  · intro m hm hm0
    exact numOr_of_nonzero hm hm0
  · intro hanim
    show valOr anim (.vstr "idle") = _
    simp [valOr, hanim]
  · intro hanim
    show valOr anim (.vstr "idle") = _
    simp [valOr, hanim]

/-- C6 witness: `state` with `x:"abc"` (non-numeric), `chap:-1`
(truthy negative) and `anim` absent, from the sample party's first
member. -/
theorem state_normalization_witness :
    ∃ st : JSState,
      alookup 10 (handleState sampleState 10 (.vstr "abc") .undef .undef .undef .undef
          (.vnum (-1)) .undef).1.clients = some (withLast st alice) ∧
      (∀ q ∈ (handleState sampleState 10 (.vstr "abc") .undef .undef .undef .undef
          (.vnum (-1)) .undef).2, q.2 = .state alice.id st) ∧
      ((toNumber (.vstr "abc") = .nan ∨ toNumber (.vstr "abc") = .num 0) → st.x = 0) ∧
      (∀ m : Int, toNumber (.vstr "abc") = .num m → m ≠ 0 → st.x = m) ∧
      ((toNumber .undef = .nan ∨ toNumber .undef = .num 0) → st.y = 0) ∧
      (∀ m : Int, toNumber .undef = .num m → m ≠ 0 → st.y = m) ∧
      ((toNumber .undef = .nan ∨ toNumber .undef = .num 0) → st.z = 0) ∧
      (∀ m : Int, toNumber .undef = .num m → m ≠ 0 → st.z = m) ∧
      ((toNumber .undef = .nan ∨ toNumber .undef = .num 0) → st.yaw = 0) ∧
      (∀ m : Int, toNumber .undef = .num m → m ≠ 0 → st.yaw = m) ∧
      ((toNumber .undef = .nan ∨ toNumber .undef = .num 0) → st.pitch = 0) ∧
      (∀ m : Int, toNumber .undef = .num m → m ≠ 0 → st.pitch = m) ∧
      ((toNumber (.vnum (-1)) = .nan ∨ toNumber (.vnum (-1)) = .num 0) → st.chap = 1) ∧
      (∀ m : Int, toNumber (.vnum (-1)) = .num m → m ≠ 0 → st.chap = m) ∧
      (truthy .undef = false → st.anim = .vstr "idle") ∧
      (truthy .undef = true → st.anim = .undef) :=
  state_normalization sampleState 10 (.vstr "abc") .undef .undef .undef .undef
    (.vnum (-1)) .undef alice sampleParty rfl rfl

theorem broadcastMsgs_exclude (party : Party) (m : ServerMsg) (id : String) :
    broadcastMsgs party m (some id) =
      (party.members.filter (fun p => p.1 ≠ id)).map (fun p => (p.2.ws, m)) := by
  simp [broadcastMsgs]

theorem filter_map_aupdate {β : Type} (k : κ) (f : α → α) (l : List (κ × α)) (g : κ × α → β) :
    ((aupdate k f l).filter (fun p => p.1 ≠ k)).map g =
      (l.filter (fun p => p.1 ≠ k)).map g := by
  induction l with
  | nil => rfl
  | cons p rest ih =>
    by_cases h : p.1 = k <;>
      simp only [aupdate, ne_eq, decide_not] at ih ⊢ <;>
      simp [List.filter_cons, h, ih]

/-- C7: `state` and `event` broadcasts exclude the sender — the
recipient sockets are exactly those of the party members whose id
differs from the sender's — and an `event` with absent `data`
broadcasts with `data` equal to the empty object. -/
theorem state_event_exclude_sender (s : ServerState) (ws : Nat)
    (x y z yaw pitch chap anim ev d : JSVal) (info : Player) (party : Party)
    (h1 : alookup ws s.clients = some info)
    (h2 : alookup info.partyCode s.parties = some party) :
    (handleState s ws x y z yaw pitch chap anim).2.map Prod.fst =
      (party.members.filter (fun p => p.1 ≠ info.id)).map (fun p => p.2.ws) ∧
    (handleEvent s ws ev d).2.map Prod.fst =
      (party.members.filter (fun p => p.1 ≠ info.id)).map (fun p => p.2.ws) ∧
    (d = .undef → (handleEvent s ws ev d).2 =
      broadcastMsgs party (.event info.id ev (.vobj [])) (some info.id)) := by
  refine ⟨?_, ?_, ?_⟩
  · rw [handleState_ok h1 h2]
    show (broadcastMsgs _ _ (some info.id)).map Prod.fst = _
    rw [broadcastMsgs_exclude]
    simp only [List.map_map]
    exact filter_map_aupdate info.id _ party.members _
  · rw [handleEvent_ok h1 h2, broadcastMsgs_exclude]
    simp [List.map_map]
  · rintro rfl
    rw [handleEvent_ok h1 h2]
    rfl

theorem handleClose_no_party {s : ServerState} {ws : Nat} {info : Player}
    (h : alookup ws s.clients = some info)
    (hp : alookup info.partyCode s.parties = none) :
    handleClose s ws = ({ s with clients := aerase ws s.clients }, []) := by
  unfold handleClose
  rw [h]
  simp only [hp]

theorem handleClose_ok {s : ServerState} {ws : Nat} {info : Player} {party : Party}
    (h : alookup ws s.clients = some info)
    (hp : alookup info.partyCode s.parties = some party) :
    handleClose s ws =
      (⟨if (aerase info.id party.members).length = 0
          then aerase info.partyCode s.parties
          else aset info.partyCode (Party.mk party.code (aerase info.id party.members)) s.parties,
        aerase ws s.clients, s.nextId⟩,
       broadcastMsgs (Party.mk party.code (aerase info.id party.members)) (.left info.id) none) := by
  unfold handleClose
  rw [h]
  simp only [hp]

theorem sizesOk_step {s s' : ServerState} (hs : SizesOk s) (hstep : Step s s') : SizesOk s' := by
  cases hstep with
  | msg ws raw oracle g out h =>
    cases raw with
    | none =>
      simp only [handleMessage, Option.some.injEq, Prod.mk.injEq] at h
      obtain ⟨rfl, rfl⟩ := h
      exact hs
    | some msg =>
      cases msg with
      | create n =>
        simp only [handleMessage] at h
        cases hc : alookup ws s.clients with
        | some info =>
          rw [handleCreate_in_party hc] at h
          simp only [Option.some.injEq, Prod.mk.injEq] at h
          obtain ⟨rfl, rfl⟩ := h
          exact hs
        | none =>
          cases ho : pickFreshCode oracle s.parties with
          | none => rw [handleCreate_stuck hc ho] at h; cases h
          | some code =>
            rw [handleCreate_ok hc ho] at h
            simp only [Option.some.injEq, Prod.mk.injEq] at h
            obtain ⟨rfl, rfl⟩ := h
            intro pr hpr
            rcases mem_aset hpr with hnew | hold
            · subst hnew
              simp
            · exact hs pr hold
      | join n c =>
        simp only [handleMessage, Option.some.injEq, Prod.mk.injEq] at h
        cases hc : alookup ws s.clients with
        | some info =>
          rw [handleJoin_in_party hc] at h
          obtain ⟨rfl, rfl⟩ := h
          exact hs
        | none =>
          cases hpp : alookup (normCode c) s.parties with
          | none =>
            rw [handleJoin_no_party hc hpp] at h
            obtain ⟨rfl, rfl⟩ := h
            exact hs
          | some party =>
            by_cases hlen : 8 ≤ party.members.length
            · rw [handleJoin_full hc hpp hlen] at h
              obtain ⟨rfl, rfl⟩ := h
              exact hs
            · rw [handleJoin_ok hc hpp hlen] at h
              obtain ⟨rfl, rfl⟩ := h
              intro pr hpr
              rcases mem_aset hpr with hnew | hold
              · subst hnew
                have hb := hs (normCode c, party) (alookup_mem hpp)
                simp only at hb ⊢
                rw [length_aset]
                split <;> omega
              · exact hs pr hold
      | state x y z yaw pitch chap anim =>
        simp only [handleMessage, Option.some.injEq, Prod.mk.injEq] at h
        cases hc : alookup ws s.clients with
        | none =>
          rw [handleState_not_resolved hc] at h
          obtain ⟨rfl, rfl⟩ := h
          exact hs
        | some info =>
          cases hpp : alookup info.partyCode s.parties with
          | none =>
            rw [handleState_no_party hc hpp] at h
            obtain ⟨rfl, rfl⟩ := h
            exact hs
          | some party =>
            rw [handleState_ok hc hpp] at h
            obtain ⟨rfl, rfl⟩ := h
            intro pr hpr
            rcases mem_aset hpr with hnew | hold
            · subst hnew
              have hb := hs (info.partyCode, party) (alookup_mem hpp)
              simp only at hb ⊢
              rw [length_aupdate]
              exact hb
            · exact hs pr hold
      | chat t =>
        simp only [handleMessage, Option.some.injEq, Prod.mk.injEq] at h
        cases hc : alookup ws s.clients with
        | none =>
          rw [handleChat_not_resolved hc] at h
          obtain ⟨rfl, rfl⟩ := h
          exact hs
        | some info =>
          cases hpp : alookup info.partyCode s.parties with
          | none =>
            rw [handleChat_no_party hc hpp] at h
            obtain ⟨rfl, rfl⟩ := h
            exact hs
          | some party =>
            rw [handleChat_ok hc hpp] at h
            obtain ⟨rfl, rfl⟩ := h
            exact hs
      | event ev d =>
        simp only [handleMessage, Option.some.injEq, Prod.mk.injEq] at h
        cases hc : alookup ws s.clients with
        | none =>
          rw [handleEvent_not_resolved hc] at h
          obtain ⟨rfl, rfl⟩ := h
          exact hs
        | some info =>
          cases hpp : alookup info.partyCode s.parties with
          | none =>
            rw [handleEvent_no_party hc hpp] at h
            obtain ⟨rfl, rfl⟩ := h
            exact hs
          | some party =>
            rw [handleEvent_ok hc hpp] at h
            obtain ⟨rfl, rfl⟩ := h
            exact hs
      | other =>
        simp only [handleMessage, Option.some.injEq, Prod.mk.injEq] at h
        obtain ⟨rfl, rfl⟩ := h
        exact hs
  | close ws out h =>
    cases hc : alookup ws s.clients with
    | none =>
      rw [handleClose_not_resolved hc] at h
      simp only [Prod.mk.injEq] at h
      obtain ⟨rfl, rfl⟩ := h
      exact hs
    | some info =>
      cases hpp : alookup info.partyCode s.parties with
      | none =>
        rw [handleClose_no_party hc hpp] at h
        simp only [Prod.mk.injEq] at h
        obtain ⟨rfl, rfl⟩ := h
        exact hs
      | some party =>
        rw [handleClose_ok hc hpp] at h
        simp only [Prod.mk.injEq] at h
        obtain ⟨rfl, rfl⟩ := h
        intro pr hpr
        simp only at hpr
        split at hpr
        · exact hs pr (mem_aerase hpr)
        · rename_i hne
          rcases mem_aset hpr with hnew | hold
          · subst hnew
            have hb := hs (info.partyCode, party) (alookup_mem hpp)
            have hle := length_aerase_le info.id party.members
            simp only at hb ⊢
            omega
          · exact hs pr hold

theorem sizesOk_reachable {s : ServerState} (h : Reachable s) : SizesOk s := by
  induction h with
  | refl =>
    intro pr hpr
    simp [initState] at hpr
  | tail h1 hstep ih => exact sizesOk_step ih hstep

/-- C3: in every reachable registry state, every live party holds
between 1 and 8 members — `create` seeds a party with one member,
`join` is guarded by the 8-member cap, and the close hook dissolves a
party in the very step its member count reaches zero. -/
theorem party_size_invariant (s : ServerState) (h : Reachable s) (code : String) (party : Party)
    (hmem : (code, party) ∈ s.parties) :
    1 ≤ party.members.length ∧ party.members.length ≤ 8 :=
  sizesOk_reachable h (code, party) hmem

/-- C3 witness: the state reached by one `create` from process start
holds one party with exactly one member. -/
theorem party_size_invariant_witness :
    1 ≤ (Party.mk "ABCD" [("1", ⟨"1", "Alice", "#44aaff", 5, "ABCD", none⟩)]).members.length ∧
    (Party.mk "ABCD" [("1", ⟨"1", "Alice", "#44aaff", 5, "ABCD", none⟩)]).members.length ≤ 8 :=
  party_size_invariant
    (⟨[("ABCD", ⟨"ABCD", [("1", ⟨"1", "Alice", "#44aaff", 5, "ABCD", none⟩)]⟩)],
      [(5, ⟨"1", "Alice", "#44aaff", 5, "ABCD", none⟩)], 2⟩)
    (Relation.ReflTransGen.single
      (Step.msg 5 (some (.create (some "Alice"))) ["ABCD"] "g"
        [(5, .welcome "1" "ABCD" [] "#44aaff")] rfl))
    "ABCD" (Party.mk "ABCD" [("1", ⟨"1", "Alice", "#44aaff", 5, "ABCD", none⟩)])
    (List.mem_cons_self _ _)

/-- C7 witness: at the sample party, a `state` and an `event` (with
absent `data`) from the member on socket 10 are sent only to socket 20,
and the `event` carries the empty-object default. -/
theorem state_event_exclude_sender_witness :
    (handleState sampleState 10 .undef .undef .undef .undef .undef .undef .undef).2.map Prod.fst =
      (sampleParty.members.filter (fun p => p.1 ≠ alice.id)).map (fun p => p.2.ws) ∧
    (handleEvent sampleState 10 (.vstr "damage") .undef).2.map Prod.fst =
      (sampleParty.members.filter (fun p => p.1 ≠ alice.id)).map (fun p => p.2.ws) ∧
    ((.undef : JSVal) = .undef → (handleEvent sampleState 10 (.vstr "damage") .undef).2 =
      broadcastMsgs sampleParty (.event alice.id (.vstr "damage") (.vobj [])) (some alice.id)) :=
  state_event_exclude_sender sampleState 10 .undef .undef .undef .undef .undef .undef .undef
    (.vstr "damage") .undef alice sampleParty rfl rfl

/-! ## Inversions of the C8 predicates -/

theorem wantsError_iff_create {s : ServerState} {ws : Nat} {n : Option String} :
    WantsError s ws (some (.create n)) ↔ (alookup ws s.clients).isSome = true := by
  unfold WantsError
  constructor
  · rintro (⟨n', _, hi⟩ | ⟨n', c', he, _⟩ | ⟨n', c', he, _, _⟩ | ⟨n', c', pr, he, _, _, _⟩)
    · exact hi
    · simp at he
    · simp at he
    · simp at he
  · intro hi
    exact Or.inl ⟨n, rfl, hi⟩

theorem wantsError_iff_join {s : ServerState} {ws : Nat} {n c : Option String} :
    WantsError s ws (some (.join n c)) ↔
      ((alookup ws s.clients).isSome = true ∨
        (alookup ws s.clients = none ∧ alookup (normCode c) s.parties = none) ∨
        (alookup ws s.clients = none ∧
          ∃ party, alookup (normCode c) s.parties = some party ∧ 8 ≤ party.members.length)) := by
  unfold WantsError
  constructor
  · rintro (⟨n', he, _⟩ | ⟨n', c', _, hi⟩ | ⟨n', c', he, hnone, hp⟩ |
      ⟨n', c', pr, he, hnone, hp, hlen⟩)
    · simp at he
    · exact Or.inl hi
    · simp only [Option.some.injEq, ClientMsg.join.injEq] at he
      obtain ⟨rfl, rfl⟩ := he
      exact Or.inr (Or.inl ⟨hnone, hp⟩)
    · simp only [Option.some.injEq, ClientMsg.join.injEq] at he
      obtain ⟨rfl, rfl⟩ := he
      exact Or.inr (Or.inr ⟨hnone, pr, hp, hlen⟩)
  · rintro (hi | ⟨hnone, hp⟩ | ⟨hnone, pr, hp, hlen⟩)
    · exact Or.inr (Or.inl ⟨n, c, rfl, hi⟩)
    · exact Or.inr (Or.inr (Or.inl ⟨n, c, rfl, hnone, hp⟩))
    · exact Or.inr (Or.inr (Or.inr ⟨n, c, pr, rfl, hnone, hp, hlen⟩))

theorem wantsError_none {s : ServerState} {ws : Nat} : ¬ WantsError s ws none := by
  rintro (⟨n', he, _⟩ | ⟨n', c', he, _⟩ | ⟨n', c', he, _, _⟩ | ⟨n', c', pr, he, _, _, _⟩) <;>
    simp at he

theorem wantsError_not_other {s : ServerState} {ws : Nat} : ¬ WantsError s ws (some .other) := by
  rintro (⟨n', he, _⟩ | ⟨n', c', he, _⟩ | ⟨n', c', he, _, _⟩ | ⟨n', c', pr, he, _, _, _⟩) <;>
    simp at he

theorem wantsError_not_state {s : ServerState} {ws : Nat} {x y z yaw pitch chap anim : JSVal} :
    ¬ WantsError s ws (some (.state x y z yaw pitch chap anim)) := by
  rintro (⟨n', he, _⟩ | ⟨n', c', he, _⟩ | ⟨n', c', he, _, _⟩ | ⟨n', c', pr, he, _, _, _⟩) <;>
    simp at he

theorem wantsError_not_chat {s : ServerState} {ws : Nat} {t : JSVal} :
    ¬ WantsError s ws (some (.chat t)) := by
  rintro (⟨n', he, _⟩ | ⟨n', c', he, _⟩ | ⟨n', c', he, _, _⟩ | ⟨n', c', pr, he, _, _, _⟩) <;>
    simp at he

theorem wantsError_not_event {s : ServerState} {ws : Nat} {ev d : JSVal} :
    ¬ WantsError s ws (some (.event ev d)) := by
  rintro (⟨n', he, _⟩ | ⟨n', c', he, _⟩ | ⟨n', c', he, _, _⟩ | ⟨n', c', pr, he, _, _, _⟩) <;>
    simp at he

theorem silentDrop_not_create {s : ServerState} {ws : Nat} {n : Option String} :
    ¬ SilentDrop s ws (some (.create n)) := by
  rintro (h | h | ⟨msg, hmsg, hshape, _⟩)
  · cases h
  · simp at h
  · simp only [Option.some.injEq] at hmsg
    subst hmsg
    rcases hshape with ⟨_, _, _, _, _, _, _, he⟩ | ⟨_, he⟩ | ⟨_, _, he⟩ <;> simp at he

theorem silentDrop_not_join {s : ServerState} {ws : Nat} {n c : Option String} :
    ¬ SilentDrop s ws (some (.join n c)) := by
  rintro (h | h | ⟨msg, hmsg, hshape, _⟩)
  · cases h
  · simp at h
  · simp only [Option.some.injEq] at hmsg
    subst hmsg
    rcases hshape with ⟨_, _, _, _, _, _, _, he⟩ | ⟨_, he⟩ | ⟨_, _, he⟩ <;> simp at he

theorem silentDrop_resolved {s : ServerState} {ws : Nat} {raw : Option ClientMsg}
    {info : Player} {party : Party}
    (hc : alookup ws s.clients = some info)
    (hpp : alookup info.partyCode s.parties = some party)
    (hsd : SilentDrop s ws raw) : raw = none ∨ raw = some .other := by
  rcases hsd with h | h | ⟨msg, hmsg, _, hdrop⟩
  · exact Or.inl h
  · exact Or.inr h
  · exfalso
    rcases hdrop with hnone | ⟨info', hinfo', hpp'⟩
    · rw [hc] at hnone
      cases hnone
    · rw [hc] at hinfo'
      injection hinfo' with hinfo'
      subst hinfo'
      rw [hpp] at hpp'
      cases hpp'

/-- C8: an `error{msg}` reply is emitted exactly for the four
conditions — `create` while resolved, `join` while resolved, `join` to
an unknown (normalised) code, `join` to a full party — and every
silently-dropped input (unparseable payload, unknown kind, or
`state`/`chat`/`event` from an unresolved handle or for a missing
party) produces no output at all and leaves the registry unchanged. -/
theorem error_reply_iff (s : ServerState) (ws : Nat) (raw : Option ClientMsg)
    (oracle : List String) (g : String) (s' : ServerState) (out : List (Nat × ServerMsg))
    (h : handleMessage s ws raw oracle g = some (s', out)) :
    ((∃ q ∈ out, isErrorMsg q.2 = true) ↔ WantsError s ws raw) ∧
    (SilentDrop s ws raw → s' = s ∧ out = []) := by
  cases raw with
  | none =>
    simp only [handleMessage, Option.some.injEq, Prod.mk.injEq] at h
    obtain ⟨rfl, rfl⟩ := h
    refine ⟨iff_of_false ?_ wantsError_none, fun _ => ⟨rfl, rfl⟩⟩
    rintro ⟨q, hq, _⟩
    exact List.not_mem_nil q hq
  | some msg =>
    cases msg with
    | create n =>
      simp only [handleMessage] at h
      cases hc : alookup ws s.clients with
      | some info =>
        rw [handleCreate_in_party hc] at h
        simp only [Option.some.injEq, Prod.mk.injEq] at h
        obtain ⟨rfl, rfl⟩ := h
        refine ⟨iff_of_true ⟨(ws, .error "Already in a party."), ?_, rfl⟩ ?_,
          fun hsd => absurd hsd silentDrop_not_create⟩
        · exact List.mem_singleton.mpr rfl
        · exact wantsError_iff_create.mpr (by rw [hc]; rfl)
      | none =>
        cases ho : pickFreshCode oracle s.parties with
        | none => rw [handleCreate_stuck hc ho] at h; cases h
        | some code =>
          rw [handleCreate_ok hc ho] at h
          simp only [Option.some.injEq, Prod.mk.injEq] at h
          obtain ⟨rfl, rfl⟩ := h
          refine ⟨iff_of_false ?_ ?_, fun hsd => absurd hsd silentDrop_not_create⟩
          · rintro ⟨q, hq, he⟩
            rw [List.mem_singleton] at hq
            subst hq
            simp [isErrorMsg] at he
          · intro hw
            have := wantsError_iff_create.mp hw
            rw [hc] at this
            cases this
    | join n c =>
      simp only [handleMessage, Option.some.injEq, Prod.mk.injEq] at h
      cases hc : alookup ws s.clients with
      | some info =>
        rw [handleJoin_in_party hc] at h
        obtain ⟨rfl, rfl⟩ := h
        refine ⟨iff_of_true ⟨(ws, .error "Already in a party."), List.mem_singleton.mpr rfl, rfl⟩
          (wantsError_iff_join.mpr (Or.inl (by rw [hc]; rfl))),
          fun hsd => absurd hsd silentDrop_not_join⟩
      | none =>
        cases hpp : alookup (normCode c) s.parties with
        | none =>
          rw [handleJoin_no_party hc hpp] at h
          obtain ⟨rfl, rfl⟩ := h
          refine ⟨iff_of_true ⟨(ws, .error ("Party \"" ++ normCode c ++ "\" not found.")),
            List.mem_singleton.mpr rfl, rfl⟩
            (wantsError_iff_join.mpr (Or.inr (Or.inl ⟨hc, hpp⟩))),
            fun hsd => absurd hsd silentDrop_not_join⟩
        | some party =>
          by_cases hlen : 8 ≤ party.members.length
          · rw [handleJoin_full hc hpp hlen] at h
            obtain ⟨rfl, rfl⟩ := h
            refine ⟨iff_of_true ⟨(ws, .error "Party is full (max 8)."),
              List.mem_singleton.mpr rfl, rfl⟩
              (wantsError_iff_join.mpr (Or.inr (Or.inr ⟨hc, party, hpp, hlen⟩))),
              fun hsd => absurd hsd silentDrop_not_join⟩
          · rw [handleJoin_ok hc hpp hlen] at h
            obtain ⟨rfl, rfl⟩ := h
            refine ⟨iff_of_false ?_ ?_, fun hsd => absurd hsd silentDrop_not_join⟩
            · rintro ⟨q, hq, he⟩
              rcases List.mem_cons.mp hq with hq1 | hq2
              · subst hq1
                simp [isErrorMsg] at he
              · rw [mem_broadcastMsgs hq2] at he
                simp [isErrorMsg] at he
            · intro hw
              rcases wantsError_iff_join.mp hw with hi | ⟨_, hp'⟩ | ⟨_, pr, hp', hlen'⟩
              · rw [hc] at hi
                cases hi
              · rw [hpp] at hp'
                cases hp'
              · rw [hpp] at hp'
                injection hp' with hp'
                subst hp'
                exact hlen hlen'
    | state x y z yaw pitch chap anim =>
      simp only [handleMessage, Option.some.injEq, Prod.mk.injEq] at h
      cases hc : alookup ws s.clients with
      | none =>
        rw [handleState_not_resolved hc] at h
        obtain ⟨rfl, rfl⟩ := h
        refine ⟨iff_of_false ?_ wantsError_not_state, fun _ => ⟨rfl, rfl⟩⟩
        rintro ⟨q, hq, _⟩
        exact List.not_mem_nil q hq
      | some info =>
        cases hpp : alookup info.partyCode s.parties with
        | none =>
          rw [handleState_no_party hc hpp] at h
          obtain ⟨rfl, rfl⟩ := h
          refine ⟨iff_of_false ?_ wantsError_not_state, fun _ => ⟨rfl, rfl⟩⟩
          rintro ⟨q, hq, _⟩
          exact List.not_mem_nil q hq
        | some party =>
          rw [handleState_ok hc hpp] at h
          obtain ⟨rfl, rfl⟩ := h
          refine ⟨iff_of_false ?_ wantsError_not_state, fun hsd => ?_⟩
          · rintro ⟨q, hq, he⟩
            rw [mem_broadcastMsgs hq] at he
            simp [isErrorMsg] at he
          · rcases silentDrop_resolved hc hpp hsd with hr | hr <;> simp at hr
    | chat t =>
      simp only [handleMessage, Option.some.injEq, Prod.mk.injEq] at h
      cases hc : alookup ws s.clients with
      | none =>
        rw [handleChat_not_resolved hc] at h
        obtain ⟨rfl, rfl⟩ := h
        refine ⟨iff_of_false ?_ wantsError_not_chat, fun _ => ⟨rfl, rfl⟩⟩
        rintro ⟨q, hq, _⟩
        exact List.not_mem_nil q hq
      | some info =>
        cases hpp : alookup info.partyCode s.parties with
        | none =>
          rw [handleChat_no_party hc hpp] at h
          obtain ⟨rfl, rfl⟩ := h
          refine ⟨iff_of_false ?_ wantsError_not_chat, fun _ => ⟨rfl, rfl⟩⟩
          rintro ⟨q, hq, _⟩
          exact List.not_mem_nil q hq
        | some party =>
          rw [handleChat_ok hc hpp] at h
          obtain ⟨rfl, rfl⟩ := h
          refine ⟨iff_of_false ?_ wantsError_not_chat, fun hsd => ?_⟩
          · rintro ⟨q, hq, he⟩
            rcases List.mem_append.mp hq with hq1 | hq2
            · rw [mem_broadcastMsgs hq1] at he
              simp [isErrorMsg] at he
            · rw [List.mem_singleton] at hq2
              subst hq2
              simp [isErrorMsg] at he
          · rcases silentDrop_resolved hc hpp hsd with hr | hr <;> simp at hr
    | event ev d =>
      simp only [handleMessage, Option.some.injEq, Prod.mk.injEq] at h
      cases hc : alookup ws s.clients with
      | none =>
        rw [handleEvent_not_resolved hc] at h
        obtain ⟨rfl, rfl⟩ := h
        refine ⟨iff_of_false ?_ wantsError_not_event, fun _ => ⟨rfl, rfl⟩⟩
        rintro ⟨q, hq, _⟩
        exact List.not_mem_nil q hq
      | some info =>
        cases hpp : alookup info.partyCode s.parties with
        | none =>
          rw [handleEvent_no_party hc hpp] at h
          obtain ⟨rfl, rfl⟩ := h
          refine ⟨iff_of_false ?_ wantsError_not_event, fun _ => ⟨rfl, rfl⟩⟩
          rintro ⟨q, hq, _⟩
          exact List.not_mem_nil q hq
        | some party =>
          rw [handleEvent_ok hc hpp] at h
          obtain ⟨rfl, rfl⟩ := h
          refine ⟨iff_of_false ?_ wantsError_not_event, fun hsd => ?_⟩
          · rintro ⟨q, hq, he⟩
            rw [mem_broadcastMsgs hq] at he
            simp [isErrorMsg] at he
          · rcases silentDrop_resolved hc hpp hsd with hr | hr <;> simp at hr
    | other =>
      simp only [handleMessage, Option.some.injEq, Prod.mk.injEq] at h
      obtain ⟨rfl, rfl⟩ := h
      refine ⟨iff_of_false ?_ wantsError_not_other, fun _ => ⟨rfl, rfl⟩⟩
      rintro ⟨q, hq, _⟩
      exact List.not_mem_nil q hq

/-- C8 witness: a `join` with unknown code `"zz"` from an unresolved
socket — the error-reply characterisation and the silent-drop clause at
a concrete input. -/
theorem error_reply_iff_witness :
    ((∃ q ∈ [((30 : Nat), ServerMsg.error ("Party \"" ++ normCode (some "zz") ++ "\" not found."))],
        isErrorMsg q.2 = true) ↔
      WantsError sampleState 30 (some (.join (some "X") (some "zz")))) ∧
    (SilentDrop sampleState 30 (some (.join (some "X") (some "zz"))) →
      sampleState = sampleState ∧
      [((30 : Nat), ServerMsg.error ("Party \"" ++ normCode (some "zz") ++ "\" not found."))] = []) :=
  error_reply_iff sampleState 30 (some (.join (some "X") (some "zz"))) [] "g"
    sampleState [(30, ServerMsg.error ("Party \"" ++ normCode (some "zz") ++ "\" not found."))] rfl

end PartyServer
